import Mathlib

/-!
Shallow embedding of the amenity-booking core of the CCT211_Project2
repository (files `CCT211.py` and `CCT211_Project2.py`), covering:

* `parse_time_to_minutes` (identical in both files);
* `AmenityBooking._validate_and_normalize_date` and
  `AmenityBooking._validate_time` (`CCT211.py`);
* the `AmenityBooking.__init__` constructors of both files
  (`CCT211.py` validates, `CCT211_Project2.py` stores fields verbatim);
* `AmenityWindow.has_conflict`, `AmenityWindow.on_booking_saved`, the
  list update of `AmenityWindow.delete_booking` and of the cancel
  confirmation branch (identical core logic in both files);
* `DataStore.next_id` (the flat-file variant; the SQL variant computes
  the same `MAX(id) + 1` with fallback `0 + 1`).

Strings are modelled as Lean `String` (lists of characters); character
classes (`\d` of the regexes, the whitespace stripped by Python `int`)
are modelled over ASCII.  Python exceptions become `Except`/`Option`
results.
-/

/-- ASCII decimal digit, the model of `\d` in the source regexes. -/
def isDigitChar (c : Char) : Bool := 48 ≤ c.toNat && c.toNat ≤ 57

/-- ASCII whitespace stripped by Python `int(...)` on its string argument. -/
def isSpaceChar (c : Char) : Bool :=
  c.toNat = 32 || c.toNat = 9 || c.toNat = 10 || c.toNat = 13 || c.toNat = 11 || c.toNat = 12

/-- Numeric value of a digit character. -/
def digitVal (c : Char) : Nat := c.toNat - 48

/-- Strip leading and trailing whitespace, as Python `int` does before parsing. -/
def pyStrip (cs : List Char) : List Char :=
  ((cs.dropWhile isSpaceChar).reverse.dropWhile isSpaceChar).reverse

/-- Digit run accumulator for `pyDigits`: digits, with single underscores
allowed between two digits (Python integer-literal grammar). -/
def pyDigitsAux (acc : Nat) : List Char → Option Nat
  | [] => some acc
  | c :: cs =>
    if isDigitChar c then pyDigitsAux (acc * 10 + digitVal c) cs
    else if c = '_' then
      match cs with
      | c2 :: cs2 =>
        if isDigitChar c2 then pyDigitsAux (acc * 10 + digitVal c2) cs2 else none
      | [] => none
    else none

/-- Nonempty digit run (Python decimal-literal body): first char a digit,
then `pyDigitsAux`. -/
def pyDigits : List Char → Option Nat
  | [] => none
  | c :: cs => if isDigitChar c then pyDigitsAux (digitVal c) cs else none

/-- Signed integer literal after stripping: optional `+`/`-` then digits. -/
def pyIntOfChars : List Char → Option Int
  | '+' :: cs => (pyDigits cs).map Int.ofNat
  | '-' :: cs => (pyDigits cs).map (fun n => -(n : Int))
  | cs => (pyDigits cs).map Int.ofNat

/-- Model of Python `int(s)` on a string: strip whitespace, then parse an
optionally signed ASCII decimal literal; `none` models `ValueError`. -/
def pyInt (s : String) : Option Int := pyIntOfChars (pyStrip s.toList)

/-- Model of Python `s.split(sep)` for a single-character separator:
splits at every occurrence, keeping empty pieces (`"".split` is `[""]`). -/
def pySplit (sep : Char) : List Char → List (List Char)
  | [] => [[]]
  | c :: rest =>
    if c = sep then [] :: pySplit sep rest
    else
      match pySplit sep rest with
      | h :: t => (c :: h) :: t
      | [] => [[c]]

/-- Embedding of `parse_time_to_minutes` (identical in both source files):

    def parse_time_to_minutes(time_str: str) -> int:
        try:
            h, m = time_str.split(":")
            return int(h) * 60 + int(m)
        except ValueError:
            return -1

Unpacking fails unless the split has exactly two pieces; `int` failure is
`none`; any `ValueError` yields `-1`. -/
def parse_time_to_minutes (time_str : String) : Int :=
  match pySplit ':' time_str.toList with
  | [h, m] =>
    match pyIntOfChars (pyStrip h), pyIntOfChars (pyStrip m) with
    | some a, some b => a * 60 + b
    | _, _ => -1
  | _ => -1

/-- True when `parse_time_to_minutes` takes its non-exceptional path:
the split on `:` yields exactly two pieces and both parse as Python ints. -/
def timeSplitParses (time_str : String) : Bool :=
  match pySplit ':' time_str.toList with
  | [h, m] => (pyIntOfChars (pyStrip h)).isSome && (pyIntOfChars (pyStrip m)).isSome
  | _ => false


/-- Full match of the regex `\d{2}:\d{2}` of `_validate_time`. -/
def timeRegexMatch (s : String) : Bool :=
  match s.toList with
  | [h1, h2, c, m1, m2] =>
    isDigitChar h1 && isDigitChar h2 && c = ':' && isDigitChar m1 && isDigitChar m2
  | _ => false

/-- Full match of the regex `\d{4}-\d{2}-\d{2}` of
`_validate_and_normalize_date`. -/
def dateRegexMatch (s : String) : Bool :=
  match s.toList with
  | [y1, y2, y3, y4, c1, m1, m2, c2, d1, d2] =>
    isDigitChar y1 && isDigitChar y2 && isDigitChar y3 && isDigitChar y4 && c1 = '-' &&
      isDigitChar m1 && isDigitChar m2 && c2 = '-' && isDigitChar d1 && isDigitChar d2
  | _ => false

/-- Distinct raise sites of `_validate_time` (all `ValueError` in Python;
the spec calls the first `FormatError` and the last two `RangeError`). -/
inductive TimeError where
  | format
  | hourRange
  | minuteRange
deriving DecidableEq, Repr

/-- Embedding of `AmenityBooking._validate_time` (`CCT211.py`): regex
gate, split on `:`, `int` both pieces, range-check hour 0..23 and minute
0..59, return the original string.  The parse failures after a successful
regex match are unreachable; they are mapped to `.format` like any other
`ValueError` before the range checks. -/
def validate_time (time_str : String) : Except TimeError String :=
  if timeRegexMatch time_str then
    match pySplit ':' time_str.toList with
    | [hh, mm] =>
      match pyIntOfChars (pyStrip hh), pyIntOfChars (pyStrip mm) with
      | some hour, some minute =>
        if ¬ (0 ≤ hour ∧ hour ≤ 23) then .error .hourRange
        else if ¬ (0 ≤ minute ∧ minute ≤ 59) then .error .minuteRange
        else .ok time_str
      | _, _ => .error .format
    | _ => .error .format
  else .error .format


/-- Distinct raise sites of `_validate_and_normalize_date` (`FormatError`,
`InvalidDateError`, `TooEarlyError` in the spec). -/
inductive DateError where
  | format
  | invalid
  | tooEarly
deriving DecidableEq, Repr

/-- Gregorian leap year, as `datetime.date` uses. -/
def isLeapYear (y : Nat) : Bool := y % 4 = 0 && (y % 100 ≠ 0 || y % 400 = 0)

/-- Days in a month of the proleptic Gregorian calendar. -/
def daysInMonth (y m : Nat) : Nat :=
  if m = 2 then (if isLeapYear y then 29 else 28)
  else if m = 4 || m = 6 || m = 9 || m = 11 then 30
  else 31

/-- Constructibility of Python `datetime.date(y, m, d)`:
`MINYEAR = 1 ≤ y ≤ MAXYEAR = 9999`, `1 ≤ m ≤ 12`, `1 ≤ d ≤` month length. -/
def isValidYMD (y m d : Int) : Bool :=
  1 ≤ y && y ≤ 9999 && 1 ≤ m && m ≤ 12 && 1 ≤ d && d ≤ (daysInMonth y.toNat m.toNat : Int)

/-- Lexicographic `date` comparison: `(y, m, d) < (y2, m2, d2)`. -/
def ymdLt (y m d y2 m2 d2 : Int) : Bool :=
  y < y2 || (y = y2 && (m < m2 || (m = m2 && d < d2)))

/-- Character of a decimal digit value. -/
def digitChar (v : Nat) : Char := Char.ofNat (48 + v)

/-- Two-digit zero-padded field of `date.isoformat` (month, day). -/
def pad2 (n : Nat) : List Char := [digitChar (n / 10 % 10), digitChar (n % 10)]

/-- Four-digit zero-padded field of `date.isoformat` (year). -/
def pad4 (n : Nat) : List Char :=
  [digitChar (n / 1000 % 10), digitChar (n / 100 % 10), digitChar (n / 10 % 10),
    digitChar (n % 10)]

/-- Model of `date(y, m, d).isoformat()` for an in-range date:
zero-padded `YYYY-MM-DD`. -/
def isoformatYMD (y m d : Nat) : String :=
  ⟨pad4 y ++ '-' :: (pad2 m ++ '-' :: pad2 d)⟩

/-- Embedding of `AmenityBooking._validate_and_normalize_date`
(`CCT211.py`): regex gate, split on `-`, `int` the three pieces, require a
constructible `datetime.date` (else `InvalidDateError`), require it on or
after `_MIN_BOOKING_DATE = date(2025, 9, 2)` (else `TooEarlyError`),
return `candidate.isoformat()`.  Parse failures after a successful regex
match are unreachable and mapped to `.format`. -/
def validate_date (date_str : String) : Except DateError String :=
  if dateRegexMatch date_str then
    match pySplit '-' date_str.toList with
    | [ys, ms, ds] =>
      match pyIntOfChars (pyStrip ys), pyIntOfChars (pyStrip ms), pyIntOfChars (pyStrip ds) with
      | some year, some month, some day =>
        if ¬ isValidYMD year month day then .error .invalid
        else if ymdLt year month day 2025 9 2 then .error .tooEarly
        else .ok (isoformatYMD year.toNat month.toNat day.toNat)
      | _, _, _ => .error .format
    | _ => .error .format
  else .error .format


/-- The amenity-booking record (fields of `AmenityBooking` in both files). -/
structure AmenityBooking where
  id : Int
  unit : String
  facility_type : String
  date : String
  start_time : String
  end_time : String
  status : String
  created_by : String
deriving DecidableEq, Repr

/-- Errors of the validating `AmenityBooking.__init__` of `CCT211.py`:
a date error, an error in either time field, the `start_time must be
earlier than end_time` check, or the (unreachable post-validation)
`ValueError` from re-splitting the validated times. -/
inductive InitError where
  | dateErr (e : DateError)
  | startErr (e : TimeError)
  | endErr (e : TimeError)
  | ordering
  | internalParse
deriving DecidableEq, Repr

/-- Hour/minute pair of a time string, as `map(int, s.split(":"))` with
two-element unpacking; `none` models the `ValueError` raise. -/
def clockPair (s : String) : Option (Int × Int) :=
  match pySplit ':' s.toList with
  | [h, m] =>
    match pyIntOfChars (pyStrip h), pyIntOfChars (pyStrip m) with
    | some a, some b => some (a, b)
    | _, _ => none
  | _ => none

/-- Lexicographic comparison `dtime(a1, a2) >= dtime(b1, b2)`. -/
def pairGE (a b : Int × Int) : Bool :=
  b.1 < a.1 || (a.1 = b.1 && b.2 ≤ a.2)

/-- Embedding of the validating `AmenityBooking.__init__` of `CCT211.py`:
validate the date and both times, then raise unless
`dtime(st_h, st_m) < dtime(et_h, et_m)`; only then is the object
constructed, with the validated (normalized) field values stored. -/
def amenityBookingInit (booking_id : Int) (unit facility_type date_str start_time end_time
    status created_by : String) : Except InitError AmenityBooking :=
  match validate_date date_str with
  | .error e => .error (.dateErr e)
  | .ok d =>
    match validate_time start_time with
    | .error e => .error (.startErr e)
    | .ok st =>
      match validate_time end_time with
      | .error e => .error (.endErr e)
      | .ok et =>
        match clockPair st, clockPair et with
        | some stp, some etp =>
          if pairGE stp etp then .error .ordering
          else .ok ⟨booking_id, unit, facility_type, d, st, et, status, created_by⟩
        | _, _ => .error .internalParse

/-- Embedding of the non-validating `AmenityBooking.__init__` of
`CCT211_Project2.py`: every field is stored verbatim and construction
always succeeds. -/
def p2AmenityBookingInit (booking_id : Int) (unit facility_type date_str start_time end_time
    status created_by : String) : AmenityBooking :=
  ⟨booking_id, unit, facility_type, date_str, start_time, end_time, status, created_by⟩

/-- Embedding of `AmenityWindow.has_conflict` (identical in both files);
`self.bookings` is passed explicitly.  The loop skips the booking sharing
`new_booking.id` (`continue`) and returns `True` on the first stored
booking with the same facility and date whose parsed interval satisfies
`start < new_end and new_start < end`. -/
def has_conflict (new_booking : AmenityBooking) (bookings : List AmenityBooking) : Bool :=
  let new_start := parse_time_to_minutes new_booking.start_time
  let new_end := parse_time_to_minutes new_booking.end_time
  if new_start < 0 || new_end < 0 then false
  else
    bookings.any fun b =>
      !(b.id == new_booking.id) &&
        (b.facility_type == new_booking.facility_type && b.date == new_booking.date &&
          (decide (parse_time_to_minutes b.start_time < new_end) &&
            decide (new_start < parse_time_to_minutes b.end_time)))

/-- First-match in-place replacement of the edit branch of
`on_booking_saved`: `for i, b in enumerate(...): if b.id == booking.id:
bookings[i] = booking; break`. -/
def replaceById (bookings : List AmenityBooking) (booking : AmenityBooking) :
    List AmenityBooking :=
  match bookings with
  | [] => []
  | b :: rest => if b.id = booking.id then booking :: rest else b :: replaceById rest booking

/-- Observable outcome of `AmenityWindow.on_booking_saved`: the returned
flag (`False` tells the form the save was rejected), the booking list
after the call, and how many times `save_and_refresh` persisted. -/
structure SaveResult where
  ok : Bool
  bookings : List AmenityBooking
  persistCalls : Nat
deriving DecidableEq, Repr

/-- Embedding of `AmenityWindow.on_booking_saved` (identical in both
files): on conflict return `False`, mutate nothing, persist nothing;
otherwise append (`is_new`) or replace in place by id, then persist once
via `save_and_refresh`. -/
def on_booking_saved (bookings : List AmenityBooking) (booking : AmenityBooking)
    (is_new : Bool) : SaveResult :=
  if has_conflict booking bookings then ⟨false, bookings, 0⟩
  else
    ⟨true, if is_new then bookings ++ [booking] else replaceById bookings booking, 1⟩

/-- List update of the confirmed branch of `AmenityWindow.delete_booking`
(identical in both files): `self.bookings = [bk for bk in self.bookings
if bk.id != b.id]`, keyed by the id of the selected booking. -/
def delete_booking (bookings : List AmenityBooking) (bid : Int) : List AmenityBooking :=
  bookings.filter fun bk => bk.id != bid

/-- List update of the confirmed branch of `AmenityWindow.cancel_booking`:
the selected booking's `status` is set to `"Cancelled"` in place; the
selected object is identified here by its id. -/
def cancel_booking (bookings : List AmenityBooking) (bid : Int) : List AmenityBooking :=
  bookings.map fun b => if b.id = bid then { b with status := "Cancelled" } else b

/-- Embedding of `DataStore.next_id` for the booking collection
(`CCT211_Project2.py`): `1` for an empty collection, else
`max(item.get("id") for item in items) + 1`.  The SQL variant of
`CCT211.py` computes the same value via `SELECT MAX(id)` with `NULL`
treated as `0`. -/
def next_id (items : List AmenityBooking) : Int :=
  match items with
  | [] => 1
  | b :: rest => (rest.map (fun x => x.id)).foldl max b.id + 1


/-! Character-level helper lemmas. -/

theorem charNe_of_toNat_ne {a b : Char} (h : a.toNat ≠ b.toNat) : a ≠ b :=
  fun he => h (he ▸ rfl)

theorem isDigitChar_toNat {c : Char} (h : isDigitChar c = true) :
    48 ≤ c.toNat ∧ c.toNat ≤ 57 := by
  simpa [isDigitChar] using h

theorem digit_ne_colon {c : Char} (h : isDigitChar c = true) : c ≠ ':' := by
  have := isDigitChar_toNat h
  have h2 : (':').toNat = 58 := rfl
  exact charNe_of_toNat_ne (by omega)

theorem digit_ne_dash {c : Char} (h : isDigitChar c = true) : c ≠ '-' := by
  have := isDigitChar_toNat h
  have h2 : ('-').toNat = 45 := rfl
  exact charNe_of_toNat_ne (by omega)

theorem digit_ne_plus {c : Char} (h : isDigitChar c = true) : c ≠ '+' := by
  have := isDigitChar_toNat h
  have h2 : ('+').toNat = 43 := rfl
  exact charNe_of_toNat_ne (by omega)

theorem digit_not_space {c : Char} (h : isDigitChar c = true) : isSpaceChar c = false := by
  have := isDigitChar_toNat h
  simp [isSpaceChar]
  omega

theorem digitChar_digitVal {c : Char} (h : isDigitChar c = true) :
    digitChar (digitVal c) = c := by
  have hb := isDigitChar_toNat h
  unfold digitChar digitVal
  rw [show 48 + (c.toNat - 48) = c.toNat by omega]
  exact Char.ofNat_toNat c

theorem pyStrip_pair {a b : Char} (ha : isSpaceChar a = false) (hb : isSpaceChar b = false) :
    pyStrip [a, b] = [a, b] := by
  simp [pyStrip, List.dropWhile, ha, hb]

theorem pyStrip_quad {a b c d : Char} (ha : isSpaceChar a = false)
    (hd : isSpaceChar d = false) : pyStrip [a, b, c, d] = [a, b, c, d] := by
  simp [pyStrip, List.dropWhile, ha, hd]

theorem pyIntOfChars_pair {a b : Char} (ha : isDigitChar a = true)
    (hb : isDigitChar b = true) :
    pyIntOfChars [a, b] = some (Int.ofNat (digitVal a * 10 + digitVal b)) := by
  simp [pyIntOfChars, digit_ne_plus ha, digit_ne_dash ha, pyDigits, pyDigitsAux, ha, hb]

theorem pyIntOfChars_quad {a b c d : Char} (ha : isDigitChar a = true)
    (hb : isDigitChar b = true) (hc : isDigitChar c = true) (hd : isDigitChar d = true) :
    pyIntOfChars [a, b, c, d] =
      some (Int.ofNat (((digitVal a * 10 + digitVal b) * 10 + digitVal c) * 10 + digitVal d)) := by
  simp [pyIntOfChars, digit_ne_plus ha, digit_ne_dash ha, pyDigits, pyDigitsAux, ha, hb, hc, hd]

theorem pySplit_time {h1 h2 m1 m2 : Char} (hh1 : h1 ≠ ':') (hh2 : h2 ≠ ':')
    (hm1 : m1 ≠ ':') (hm2 : m2 ≠ ':') :
    pySplit ':' [h1, h2, ':', m1, m2] = [[h1, h2], [m1, m2]] := by
  simp [pySplit, hh1, hh2, hm1, hm2]

theorem pySplit_date {y1 y2 y3 y4 m1 m2 d1 d2 : Char} (hy1 : y1 ≠ '-') (hy2 : y2 ≠ '-')
    (hy3 : y3 ≠ '-') (hy4 : y4 ≠ '-') (hm1 : m1 ≠ '-') (hm2 : m2 ≠ '-')
    (hd1 : d1 ≠ '-') (hd2 : d2 ≠ '-') :
    pySplit '-' [y1, y2, y3, y4, '-', m1, m2, '-', d1, d2] =
      [[y1, y2, y3, y4], [m1, m2], [d1, d2]] := by
  simp [pySplit, hy1, hy2, hy3, hy4, hm1, hm2, hd1, hd2]

/-! Conflict-checker characterization. -/

/-- Overlap predicate tested by the loop body of `has_conflict` for a
stored booking `b` against candidate `c`. -/
def conflictsWith (c b : AmenityBooking) : Prop :=
  b.id ≠ c.id ∧ b.facility_type = c.facility_type ∧ b.date = c.date ∧
    parse_time_to_minutes b.start_time < parse_time_to_minutes c.end_time ∧
    parse_time_to_minutes c.start_time < parse_time_to_minutes b.end_time

theorem has_conflict_iff_aux (c : AmenityBooking) (bs : List AmenityBooking)
    (hs : 0 ≤ parse_time_to_minutes c.start_time)
    (he : 0 ≤ parse_time_to_minutes c.end_time) :
    has_conflict c bs = true ↔ ∃ b ∈ bs, conflictsWith c b := by
  have h1 : ¬ parse_time_to_minutes c.start_time < 0 := not_lt.2 hs
  have h2 : ¬ parse_time_to_minutes c.end_time < 0 := not_lt.2 he
  simp [has_conflict, h1, h2, List.any_eq_true, conflictsWith, and_assoc]

theorem has_conflict_neg_aux (c : AmenityBooking) (bs : List AmenityBooking)
    (h : parse_time_to_minutes c.start_time < 0 ∨ parse_time_to_minutes c.end_time < 0) :
    has_conflict c bs = false := by
  unfold has_conflict
  rcases h with h | h <;> simp [h]

theorem parses_false_aux (s : String) (h : timeSplitParses s = false) :
    parse_time_to_minutes s = -1 := by
  unfold timeSplitParses at h
  unfold parse_time_to_minutes
  split at h
  next l m _ =>
    rcases h1 : pyIntOfChars (pyStrip l) with _ | a
    · simp
    rcases h2 : pyIntOfChars (pyStrip m) with _ | b
    · simp
    rw [h1, h2] at h
    simp at h
  next =>
    rfl

/-- C1: for every candidate booking whose start and end times parse to
non-negative minutes-since-midnight, `has_conflict` returns `true` iff
some existing booking with a different id has the same facility type and
date and overlaps under `existingStart < candidateEnd AND candidateStart
< existingEnd` (half-open interval semantics). -/
theorem claim_C1 (c : AmenityBooking) (bs : List AmenityBooking)
    (hs : 0 ≤ parse_time_to_minutes c.start_time)
    (he : 0 ≤ parse_time_to_minutes c.end_time) :
    has_conflict c bs = true ↔
      ∃ b ∈ bs, b.id ≠ c.id ∧ b.facility_type = c.facility_type ∧ b.date = c.date ∧
        parse_time_to_minutes b.start_time < parse_time_to_minutes c.end_time ∧
        parse_time_to_minutes c.start_time < parse_time_to_minutes b.end_time :=
  has_conflict_iff_aux c bs hs he

/-- C1 witness: the interval `[09:00,10:30)` conflicts with `[10:00,11:00)`
on the same facility and date, while the touching `[09:00,10:00)` does
not. -/
theorem claim_C1_witness :
    has_conflict ⟨9, "101", "Meeting Room", "2025-09-10", "09:00", "10:30", "Booked", ""⟩
        [⟨2, "102", "Meeting Room", "2025-09-10", "10:00", "11:00", "Booked", ""⟩] = true ∧
      has_conflict ⟨9, "101", "Meeting Room", "2025-09-10", "09:00", "10:00", "Booked", ""⟩
        [⟨2, "102", "Meeting Room", "2025-09-10", "10:00", "11:00", "Booked", ""⟩] = false := by
  constructor
  · exact (claim_C1 _ _ (by decide) (by decide)).mpr
      ⟨_, List.mem_singleton.2 rfl, by decide, rfl, rfl, by decide, by decide⟩
  · have h := claim_C1
      ⟨9, "101", "Meeting Room", "2025-09-10", "09:00", "10:00", "Booked", ""⟩
      [⟨2, "102", "Meeting Room", "2025-09-10", "10:00", "11:00", "Booked", ""⟩]
      (by decide) (by decide)
    rw [Bool.eq_false_iff]
    intro hc
    obtain ⟨b, hmem, hb⟩ := h.mp hc
    rw [List.mem_singleton] at hmem
    subst hmem
    revert hb
    decide

/-- C2: `has_conflict` ignores the `status` field, so a Cancelled booking
for the same facility and date whose interval overlaps the candidate
still triggers the conflict rejection (`on_booking_saved` returns the
failure flag, leaves the collection unchanged and does not persist). -/
theorem claim_C2 (c b : AmenityBooking) (bs : List AmenityBooking) (hmem : b ∈ bs)
    (hstat : b.status = "Cancelled") (hid : b.id ≠ c.id)
    (hfac : b.facility_type = c.facility_type) (hdate : b.date = c.date)
    (hs : 0 ≤ parse_time_to_minutes c.start_time)
    (he : 0 ≤ parse_time_to_minutes c.end_time)
    (ho1 : parse_time_to_minutes b.start_time < parse_time_to_minutes c.end_time)
    (ho2 : parse_time_to_minutes c.start_time < parse_time_to_minutes b.end_time) :
    has_conflict c bs = true ∧ on_booking_saved bs c true = ⟨false, bs, 0⟩ := by
  have hc : has_conflict c bs = true :=
    (has_conflict_iff_aux c bs hs he).mpr ⟨b, hmem, hid, hfac, hdate, ho1, ho2⟩
  exact ⟨hc, by simp [on_booking_saved, hc]⟩

/-- C2 witness: a Cancelled booking occupying `[10:00,11:00)` still blocks
creating a new booking over the same interval. -/
theorem claim_C2_witness :
    has_conflict ⟨2, "101", "Meeting Room", "2025-09-10", "10:00", "11:00", "Booked", ""⟩
        [⟨1, "102", "Meeting Room", "2025-09-10", "10:00", "11:00", "Cancelled", ""⟩] = true ∧
      on_booking_saved
        [⟨1, "102", "Meeting Room", "2025-09-10", "10:00", "11:00", "Cancelled", ""⟩]
        ⟨2, "101", "Meeting Room", "2025-09-10", "10:00", "11:00", "Booked", ""⟩ true =
        ⟨false, [⟨1, "102", "Meeting Room", "2025-09-10", "10:00", "11:00", "Cancelled", ""⟩],
          0⟩ :=
  claim_C2 _ _ _ (List.mem_singleton.2 rfl) rfl (by decide) rfl rfl
    (by decide) (by decide) (by decide) (by decide)

/-- C3: whenever `has_conflict` reports a conflict for the submitted
booking, `on_booking_saved` returns the rejection flag and the booking
collection is exactly the input collection with no persistence call,
for both the create (`is_new = true`) and edit (`is_new = false`) paths. -/
theorem claim_C3 (bookings : List AmenityBooking) (booking : AmenityBooking) (is_new : Bool)
    (h : has_conflict booking bookings = true) :
    on_booking_saved bookings booking is_new = ⟨false, bookings, 0⟩ := by
  simp [on_booking_saved, h]

/-- C3 witness: a conflicting edit attempt is rejected and the stored
collection is returned untouched with zero persistence calls. -/
theorem claim_C3_witness :
    on_booking_saved
      [⟨1, "102", "Gym", "2025-09-10", "10:00", "11:00", "Booked", ""⟩,
        ⟨2, "103", "Gym", "2025-09-10", "12:00", "13:00", "Booked", ""⟩]
      ⟨2, "103", "Gym", "2025-09-10", "10:30", "11:30", "Booked", ""⟩ false =
      ⟨false,
        [⟨1, "102", "Gym", "2025-09-10", "10:00", "11:00", "Booked", ""⟩,
          ⟨2, "103", "Gym", "2025-09-10", "12:00", "13:00", "Booked", ""⟩], 0⟩ :=
  claim_C3 _ _ false (by decide)

/-- C4 counterexample: `"9:00"` is rejected by `validate_time`, yet
`parse_time_to_minutes` maps it to `540`, not to a negative sentinel, so
not every time string rejected by validation converts to a negative
value. -/
theorem claim_C4_counterexample :
    validate_time "9:00" = .error .format ∧ parse_time_to_minutes "9:00" = 540 :=
  ⟨rfl, rfl⟩

/-- C4 (amended): every time string on which the conversion itself fails
(the split on `:` does not yield exactly two Python-int-parseable parts)
is mapped to the sentinel `-1`, and `has_conflict` short-circuits to no
conflict whenever the candidate's start or end time converts to a
negative value. -/
theorem claim_C4 :
    (∀ s : String, timeSplitParses s = false → parse_time_to_minutes s = -1) ∧
      ∀ (c : AmenityBooking) (bs : List AmenityBooking),
        parse_time_to_minutes c.start_time < 0 ∨ parse_time_to_minutes c.end_time < 0 →
          has_conflict c bs = false :=
  ⟨parses_false_aux, has_conflict_neg_aux⟩

/-- C4 witness: `"aa:bb"` fails conversion and maps to `-1`, and a
candidate carrying it produces no conflict even against an overlapping
stored booking. -/
theorem claim_C4_witness :
    parse_time_to_minutes "aa:bb" = -1 ∧
      has_conflict ⟨9, "101", "Gym", "2025-09-10", "aa:bb", "11:00", "Booked", ""⟩
        [⟨2, "102", "Gym", "2025-09-10", "10:00", "11:00", "Booked", ""⟩] = false :=
  ⟨claim_C4.1 "aa:bb" (by decide), claim_C4.2 _ _ (Or.inl (by decide))⟩

/-! Delete, id allocation, and symmetry. -/

/-- C9: `delete_booking` keeps exactly the bookings whose id differs from
the given id, each unchanged and in its original order (the result is a
sublist), and deleting an id matching no stored booking is a no-op. -/
theorem claim_C9 (bs : List AmenityBooking) (bid : Int) :
    (∀ b : AmenityBooking, b ∈ delete_booking bs bid ↔ b ∈ bs ∧ b.id ≠ bid) ∧
      List.Sublist (delete_booking bs bid) bs ∧
      ((∀ b ∈ bs, b.id ≠ bid) → delete_booking bs bid = bs) := by
  refine ⟨?_, ?_, ?_⟩
  · intro b
    simp [delete_booking, List.mem_filter]
  · exact List.filter_sublist bs
  · intro h
    rw [delete_booking, List.filter_eq_self]
    intro a ha
    simpa using h a ha

/-- C9 witness: deleting id `2` from a collection holding only id `1`
leaves the collection unchanged. -/
theorem claim_C9_witness :
    delete_booking [⟨1, "101", "Gym", "2025-09-10", "10:00", "11:00", "Booked", ""⟩] 2 =
      [⟨1, "101", "Gym", "2025-09-10", "10:00", "11:00", "Booked", ""⟩] :=
  (claim_C9 [⟨1, "101", "Gym", "2025-09-10", "10:00", "11:00", "Booked", ""⟩] 2).2.2
    (by decide)

theorem foldl_max_init_le (l : List Int) : ∀ a : Int, a ≤ l.foldl max a := by
  induction l with
  | nil => intro a; simp
  | cons b t ih =>
    intro a
    rw [List.foldl_cons]
    exact le_trans (le_max_left a b) (ih (max a b))

theorem foldl_max_mem_le (l : List Int) : ∀ a : Int, ∀ x ∈ l, x ≤ l.foldl max a := by
  induction l with
  | nil => simp
  | cons b t ih =>
    intro a x hx
    rw [List.foldl_cons]
    rcases List.mem_cons.1 hx with rfl | hx
    · exact le_trans (le_max_right a x) (foldl_max_init_le t (max a x))
    · exact ih (max a b) x hx

theorem foldl_max_attained (l : List Int) : ∀ a : Int, l.foldl max a = a ∨ l.foldl max a ∈ l := by
  induction l with
  | nil => intro a; simp
  | cons b t ih =>
    intro a
    rw [List.foldl_cons]
    rcases ih (max a b) with h | h
    · rcases max_choice a b with he | he
      · exact Or.inl (by rw [h, he])
      · exact Or.inr (by rw [h, he]; exact List.mem_cons_self b t)
    · exact Or.inr (List.mem_cons_of_mem b h)

theorem next_id_gt_aux (bs : List AmenityBooking) : ∀ b ∈ bs, b.id < next_id bs := by
  match bs with
  | [] => simp
  | c :: rest =>
    intro b hb
    rw [next_id]
    rcases List.mem_cons.1 hb with rfl | hb
    · have := foldl_max_init_le (rest.map fun x => x.id) b.id
      omega
    · have := foldl_max_mem_le (rest.map fun x => x.id) c.id b.id
        (List.mem_map_of_mem (fun x => x.id) hb)
      omega

theorem next_id_attained_aux (bs : List AmenityBooking) (h : bs ≠ []) :
    ∃ b ∈ bs, next_id bs = b.id + 1 := by
  match bs with
  | [] => exact absurd rfl h
  | c :: rest =>
    rw [next_id]
    rcases foldl_max_attained (rest.map fun x => x.id) c.id with he | he
    · exact ⟨c, List.mem_cons_self c rest, by rw [he]⟩
    · obtain ⟨b, hb, hbid⟩ := List.mem_map.1 he
      exact ⟨b, List.mem_cons_of_mem c hb, by rw [← hbid]⟩

theorem replaceById_map_id (bs : List AmenityBooking) (booking : AmenityBooking) :
    (replaceById bs booking).map (fun b => b.id) = bs.map fun b => b.id := by
  induction bs with
  | nil => rfl
  | cons c rest ih =>
    rw [replaceById]
    by_cases hc : c.id = booking.id
    · simp [hc]
    · simp [hc, ih]

theorem cancel_map_id (bs : List AmenityBooking) (bid : Int) :
    (cancel_booking bs bid).map (fun b => b.id) = bs.map fun b => b.id := by
  rw [cancel_booking, List.map_map]
  refine List.map_congr_left fun b _ => ?_
  by_cases hb : b.id = bid <;> simp [hb]

/-- C8: `next_id` is `1` on the empty collection and otherwise exceeds
every stored id while being exactly one more than some stored id (one
greater than the maximum); consequently, starting from a collection with
unique ids, the create path (appending a booking carrying `next_id`), the
edit path (in-place replacement keyed by the same id), the cancel status
flip and the delete filter all leave the ids unique. -/
theorem claim_C8 (bs : List AmenityBooking) (booking : AmenityBooking) (bid : Int)
    (huniq : (bs.map fun b => b.id).Nodup) :
    (bs = [] → next_id bs = 1) ∧
      (∀ b ∈ bs, b.id < next_id bs) ∧
      (bs ≠ [] → ∃ b ∈ bs, next_id bs = b.id + 1) ∧
      (booking.id = next_id bs →
        (((on_booking_saved bs booking true).bookings).map fun b => b.id).Nodup) ∧
      ((((on_booking_saved bs booking false).bookings).map fun b => b.id).Nodup) ∧
      (((cancel_booking bs bid).map fun b => b.id).Nodup) ∧
      (((delete_booking bs bid).map fun b => b.id).Nodup) := by
  refine ⟨fun he => by rw [he]; rfl, next_id_gt_aux bs, next_id_attained_aux bs,
    fun hid => ?_, ?_, ?_, ?_⟩
  · rw [on_booking_saved]
    split
    · exact huniq
    · have hnotmem : booking.id ∉ bs.map fun b => b.id := by
        intro hmem
        obtain ⟨b, hb, hbid⟩ := List.mem_map.1 hmem
        have := next_id_gt_aux bs b hb
        omega
      simp only [if_true, List.map_append, List.map_cons, List.map_nil]
      exact List.Nodup.append huniq (List.nodup_singleton _)
        (List.disjoint_singleton.2 hnotmem)
  · rw [on_booking_saved]
    split
    · exact huniq
    · simpa [replaceById_map_id] using huniq
  · rw [cancel_map_id]
    exact huniq
  · exact List.Nodup.sublist (List.Sublist.map _ (List.filter_sublist bs)) huniq

/-- C8 witness: on a two-element collection with ids 1 and 2, `next_id`
is one greater than a stored id, and appending a fresh booking under that
id keeps the ids unique. -/
theorem claim_C8_witness :
    (∃ b ∈ [(⟨1, "101", "Gym", "2025-09-10", "10:00", "11:00", "Booked", ""⟩ : AmenityBooking),
        ⟨2, "102", "Pool", "2025-09-11", "10:00", "11:00", "Booked", ""⟩],
      next_id [(⟨1, "101", "Gym", "2025-09-10", "10:00", "11:00", "Booked", ""⟩ : AmenityBooking),
        ⟨2, "102", "Pool", "2025-09-11", "10:00", "11:00", "Booked", ""⟩] = b.id + 1) ∧
      (((on_booking_saved
          [⟨1, "101", "Gym", "2025-09-10", "10:00", "11:00", "Booked", ""⟩,
            ⟨2, "102", "Pool", "2025-09-11", "10:00", "11:00", "Booked", ""⟩]
          ⟨3, "103", "Gym", "2025-09-12", "10:00", "11:00", "Booked", ""⟩
          true).bookings).map fun b => b.id).Nodup := by
  have h := claim_C8
    [⟨1, "101", "Gym", "2025-09-10", "10:00", "11:00", "Booked", ""⟩,
      ⟨2, "102", "Pool", "2025-09-11", "10:00", "11:00", "Booked", ""⟩]
    ⟨3, "103", "Gym", "2025-09-12", "10:00", "11:00", "Booked", ""⟩ 1 (by decide)
  exact ⟨h.2.2.1 (by decide), h.2.2.2.1 (by decide)⟩

/-- C10: the conflict relation is symmetric — for two bookings with
distinct ids whose four time fields all parse to non-negative minutes,
`has_conflict a [b]` equals `has_conflict b [a]`. -/
theorem claim_C10 (a b : AmenityBooking) (hid : a.id ≠ b.id)
    (h1 : 0 ≤ parse_time_to_minutes a.start_time)
    (h2 : 0 ≤ parse_time_to_minutes a.end_time)
    (h3 : 0 ≤ parse_time_to_minutes b.start_time)
    (h4 : 0 ≤ parse_time_to_minutes b.end_time) :
    has_conflict a [b] = has_conflict b [a] := by
  have ha := has_conflict_iff_aux a [b] h1 h2
  have hb := has_conflict_iff_aux b [a] h3 h4
  have hiff : has_conflict a [b] = true ↔ has_conflict b [a] = true := by
    rw [ha, hb]
    constructor
    · rintro ⟨x, hx, hne, hf, hd, ho1, ho2⟩
      rw [List.mem_singleton] at hx
      subst hx
      exact ⟨a, List.mem_singleton.2 rfl, Ne.symm hne, hf.symm, hd.symm, ho2, ho1⟩
    · rintro ⟨x, hx, hne, hf, hd, ho1, ho2⟩
      rw [List.mem_singleton] at hx
      subst hx
      exact ⟨b, List.mem_singleton.2 rfl, Ne.symm hne, hf.symm, hd.symm, ho2, ho1⟩
  rcases hc : has_conflict b [a] with _ | _
  · rw [Bool.eq_false_iff]
    intro ht
    rw [hc] at hiff
    simp [hiff.mp ht] at hc ⊢
    exact (Bool.false_ne_true (hiff.mp ht)).elim
  · exact hiff.mpr hc

/-- C10 witness: symmetry at a concrete overlapping pair. -/
theorem claim_C10_witness :
    has_conflict ⟨1, "101", "Gym", "2025-09-10", "09:00", "10:30", "Booked", ""⟩
        [⟨2, "102", "Gym", "2025-09-10", "10:00", "11:00", "Booked", ""⟩] =
      has_conflict ⟨2, "102", "Gym", "2025-09-10", "10:00", "11:00", "Booked", ""⟩
        [⟨1, "101", "Gym", "2025-09-10", "09:00", "10:30", "Booked", ""⟩] :=
  claim_C10 _ _ (by decide) (by decide) (by decide) (by decide) (by decide)

/-! Evaluation of parsing and validation on `HH:MM`-shaped strings. -/

theorem parse_shaped {s : String} {h1 h2 m1 m2 : Char} (hs : s.toList = [h1, h2, ':', m1, m2])
    (e1 : isDigitChar h1 = true) (e2 : isDigitChar h2 = true)
    (e3 : isDigitChar m1 = true) (e4 : isDigitChar m2 = true) :
    parse_time_to_minutes s =
      (((digitVal h1 * 10 + digitVal h2) * 60 + (digitVal m1 * 10 + digitVal m2) : Nat) : Int) := by
  unfold parse_time_to_minutes
  rw [hs, pySplit_time (digit_ne_colon e1) (digit_ne_colon e2) (digit_ne_colon e3)
    (digit_ne_colon e4)]
  simp only [pyStrip_pair (digit_not_space e1) (digit_not_space e2),
    pyStrip_pair (digit_not_space e3) (digit_not_space e4),
    pyIntOfChars_pair e1 e2, pyIntOfChars_pair e3 e4]
  simp only [Int.ofNat_eq_coe]
  push_cast
  ring

theorem timeRegexMatch_shaped {s : String} {h1 h2 m1 m2 : Char}
    (hs : s.toList = [h1, h2, ':', m1, m2])
    (e1 : isDigitChar h1 = true) (e2 : isDigitChar h2 = true)
    (e3 : isDigitChar m1 = true) (e4 : isDigitChar m2 = true) :
    timeRegexMatch s = true := by
  have hd : s.data = [h1, h2, ':', m1, m2] := hs
  simp [timeRegexMatch, hd, e1, e2, e3, e4]

theorem timeRegexMatch_shape {s : String} (h : timeRegexMatch s = true) :
    ∃ h1 h2 m1 m2, s.toList = [h1, h2, ':', m1, m2] ∧ isDigitChar h1 = true ∧
      isDigitChar h2 = true ∧ isDigitChar m1 = true ∧ isDigitChar m2 = true := by
  unfold timeRegexMatch at h
  split at h
  next h1 h2 c m1 m2 heq =>
    simp only [Bool.and_eq_true, decide_eq_true_eq] at h
    obtain ⟨⟨⟨⟨e1, e2⟩, ec⟩, e3⟩, e4⟩ := h
    exact ⟨h1, h2, m1, m2, by rw [heq, ec], e1, e2, e3, e4⟩
  next =>
    exact absurd h (by simp)

theorem validate_time_shaped {s : String} {h1 h2 m1 m2 : Char}
    (hs : s.toList = [h1, h2, ':', m1, m2])
    (e1 : isDigitChar h1 = true) (e2 : isDigitChar h2 = true)
    (e3 : isDigitChar m1 = true) (e4 : isDigitChar m2 = true) :
    validate_time s =
      if ¬ (digitVal h1 * 10 + digitVal h2 ≤ 23) then .error .hourRange
      else if ¬ (digitVal m1 * 10 + digitVal m2 ≤ 59) then .error .minuteRange
      else .ok s := by
  unfold validate_time
  rw [if_pos (timeRegexMatch_shaped hs e1 e2 e3 e4)]
  rw [hs, pySplit_time (digit_ne_colon e1) (digit_ne_colon e2) (digit_ne_colon e3)
    (digit_ne_colon e4)]
  simp only [pyStrip_pair (digit_not_space e1) (digit_not_space e2),
    pyStrip_pair (digit_not_space e3) (digit_not_space e4),
    pyIntOfChars_pair e1 e2, pyIntOfChars_pair e3 e4]
  have hh : (0 ≤ (Int.ofNat (digitVal h1 * 10 + digitVal h2)) ∧
      Int.ofNat (digitVal h1 * 10 + digitVal h2) ≤ 23) ↔
      digitVal h1 * 10 + digitVal h2 ≤ 23 := by
    simp only [Int.ofNat_eq_coe]
    omega
  have hm : (0 ≤ (Int.ofNat (digitVal m1 * 10 + digitVal m2)) ∧
      Int.ofNat (digitVal m1 * 10 + digitVal m2) ≤ 59) ↔
      digitVal m1 * 10 + digitVal m2 ≤ 59 := by
    simp only [Int.ofNat_eq_coe]
    omega
  simp only [hh, hm]

theorem validate_time_format_aux {s : String} (h : timeRegexMatch s = false) :
    validate_time s = .error .format := by
  unfold validate_time
  rw [if_neg (by simp [h])]

theorem validate_time_unchanged_aux {s r : String} (h : validate_time s = .ok r) : r = s := by
  unfold validate_time at h
  split at h
  · split at h
    next =>
      split at h
      next =>
        split at h
        · exact absurd h (by simp)
        · split at h
          · exact absurd h (by simp)
          · exact (Except.ok.inj h).symm
      next => exact absurd h (by simp)
    next => exact absurd h (by simp)
  · exact absurd h (by simp)

/-- C6: `validate_time` rejects any string not matching two digits, `:`,
two digits with a `FormatError`; on a matching string it succeeds exactly
when the hour is at most 23 and the minute at most 59; every success
returns the original string unchanged; and the documented examples
behave as stated (`"9:00"`, `"12:0"`, `"24:00"`, `"aa:bb"` fail,
`"00:00"` and `"23:59"` succeed). -/
theorem claim_C6 :
    (∀ s : String, timeRegexMatch s = false → validate_time s = .error .format) ∧
      (∀ (s : String) (h1 h2 m1 m2 : Char), s.toList = [h1, h2, ':', m1, m2] →
        isDigitChar h1 = true → isDigitChar h2 = true → isDigitChar m1 = true →
        isDigitChar m2 = true →
        (validate_time s = .ok s ↔
          digitVal h1 * 10 + digitVal h2 ≤ 23 ∧ digitVal m1 * 10 + digitVal m2 ≤ 59)) ∧
      (∀ s r : String, validate_time s = .ok r → r = s) ∧
      validate_time "9:00" = .error .format ∧ validate_time "12:0" = .error .format ∧
      validate_time "24:00" = .error .hourRange ∧ validate_time "aa:bb" = .error .format ∧
      validate_time "00:00" = .ok "00:00" ∧ validate_time "23:59" = .ok "23:59" := by
  refine ⟨fun s h => validate_time_format_aux h, ?_, fun s r h => validate_time_unchanged_aux h,
    rfl, rfl, rfl, rfl, rfl, rfl⟩
  intro s h1 h2 m1 m2 hs e1 e2 e3 e4
  rw [validate_time_shaped hs e1 e2 e3 e4]
  constructor
  · intro h
    by_cases hh : digitVal h1 * 10 + digitVal h2 ≤ 23
    · by_cases hm : digitVal m1 * 10 + digitVal m2 ≤ 59
      · exact ⟨hh, hm⟩
      · simp [hh, hm] at h
    · simp [hh] at h
  · rintro ⟨hh, hm⟩
    simp [hh, hm]

/-- C6 witness: the characterization applied at the concrete strings
`"07:45"` (accepted unchanged) and `"7:45"` (format failure). -/
theorem claim_C6_witness :
    validate_time "07:45" = .ok "07:45" ∧ validate_time "7:45" = .error .format :=
  ⟨(claim_C6.2.1 "07:45" '0' '7' '4' '5' rfl rfl rfl rfl rfl).mpr (by decide),
    claim_C6.1 "7:45" (by decide)⟩

/-! Evaluation of date validation on `YYYY-MM-DD`-shaped strings. -/

theorem pad2_digits {a b : Char} (ha : isDigitChar a = true) (hb : isDigitChar b = true) :
    pad2 (digitVal a * 10 + digitVal b) = [a, b] := by
  have t1 := isDigitChar_toNat ha
  have t2 := isDigitChar_toNat hb
  unfold pad2
  have e1 : (digitVal a * 10 + digitVal b) / 10 % 10 = digitVal a := by unfold digitVal; omega
  have e2 : (digitVal a * 10 + digitVal b) % 10 = digitVal b := by unfold digitVal; omega
  rw [e1, e2, digitChar_digitVal ha, digitChar_digitVal hb]

theorem pad4_digits {a b c d : Char} (ha : isDigitChar a = true) (hb : isDigitChar b = true)
    (hc : isDigitChar c = true) (hd : isDigitChar d = true) :
    pad4 (((digitVal a * 10 + digitVal b) * 10 + digitVal c) * 10 + digitVal d) =
      [a, b, c, d] := by
  have t1 := isDigitChar_toNat ha
  have t2 := isDigitChar_toNat hb
  have t3 := isDigitChar_toNat hc
  have t4 := isDigitChar_toNat hd
  unfold pad4
  have e1 : (((digitVal a * 10 + digitVal b) * 10 + digitVal c) * 10 + digitVal d) / 1000 % 10 =
      digitVal a := by unfold digitVal; omega
  have e2 : (((digitVal a * 10 + digitVal b) * 10 + digitVal c) * 10 + digitVal d) / 100 % 10 =
      digitVal b := by unfold digitVal; omega
  have e3 : (((digitVal a * 10 + digitVal b) * 10 + digitVal c) * 10 + digitVal d) / 10 % 10 =
      digitVal c := by unfold digitVal; omega
  have e4 : (((digitVal a * 10 + digitVal b) * 10 + digitVal c) * 10 + digitVal d) % 10 =
      digitVal d := by unfold digitVal; omega
  rw [e1, e2, e3, e4, digitChar_digitVal ha, digitChar_digitVal hb, digitChar_digitVal hc,
    digitChar_digitVal hd]

theorem dateRegexMatch_shaped {s : String} {y1 y2 y3 y4 m1 m2 d1 d2 : Char}
    (hs : s.toList = [y1, y2, y3, y4, '-', m1, m2, '-', d1, d2])
    (e1 : isDigitChar y1 = true) (e2 : isDigitChar y2 = true) (e3 : isDigitChar y3 = true)
    (e4 : isDigitChar y4 = true) (e5 : isDigitChar m1 = true) (e6 : isDigitChar m2 = true)
    (e7 : isDigitChar d1 = true) (e8 : isDigitChar d2 = true) :
    dateRegexMatch s = true := by
  have hd : s.data = [y1, y2, y3, y4, '-', m1, m2, '-', d1, d2] := hs
  simp [dateRegexMatch, hd, e1, e2, e3, e4, e5, e6, e7, e8]

theorem dateRegexMatch_shape {s : String} (h : dateRegexMatch s = true) :
    ∃ y1 y2 y3 y4 m1 m2 d1 d2, s.toList = [y1, y2, y3, y4, '-', m1, m2, '-', d1, d2] ∧
      isDigitChar y1 = true ∧ isDigitChar y2 = true ∧ isDigitChar y3 = true ∧
      isDigitChar y4 = true ∧ isDigitChar m1 = true ∧ isDigitChar m2 = true ∧
      isDigitChar d1 = true ∧ isDigitChar d2 = true := by
  unfold dateRegexMatch at h
  split at h
  next y1 y2 y3 y4 c1 m1 m2 c2 d1 d2 heq =>
    simp only [Bool.and_eq_true, decide_eq_true_eq] at h
    obtain ⟨⟨⟨⟨⟨⟨⟨⟨⟨e1, e2⟩, e3⟩, e4⟩, ec1⟩, e5⟩, e6⟩, ec2⟩, e7⟩, e8⟩ := h
    exact ⟨y1, y2, y3, y4, m1, m2, d1, d2, by rw [heq, ec1, ec2],
      e1, e2, e3, e4, e5, e6, e7, e8⟩
  next =>
    exact absurd h (by simp)

theorem validate_date_shaped {s : String} {y1 y2 y3 y4 m1 m2 d1 d2 : Char}
    (hs : s.toList = [y1, y2, y3, y4, '-', m1, m2, '-', d1, d2])
    (e1 : isDigitChar y1 = true) (e2 : isDigitChar y2 = true) (e3 : isDigitChar y3 = true)
    (e4 : isDigitChar y4 = true) (e5 : isDigitChar m1 = true) (e6 : isDigitChar m2 = true)
    (e7 : isDigitChar d1 = true) (e8 : isDigitChar d2 = true) :
    validate_date s =
      if ¬ isValidYMD
          (Int.ofNat (((digitVal y1 * 10 + digitVal y2) * 10 + digitVal y3) * 10 + digitVal y4))
          (Int.ofNat (digitVal m1 * 10 + digitVal m2))
          (Int.ofNat (digitVal d1 * 10 + digitVal d2)) then .error .invalid
      else if ymdLt
          (Int.ofNat (((digitVal y1 * 10 + digitVal y2) * 10 + digitVal y3) * 10 + digitVal y4))
          (Int.ofNat (digitVal m1 * 10 + digitVal m2))
          (Int.ofNat (digitVal d1 * 10 + digitVal d2)) 2025 9 2 = true then .error .tooEarly
      else .ok s := by
  unfold validate_date
  rw [if_pos (dateRegexMatch_shaped hs e1 e2 e3 e4 e5 e6 e7 e8)]
  rw [hs, pySplit_date (digit_ne_dash e1) (digit_ne_dash e2) (digit_ne_dash e3)
    (digit_ne_dash e4) (digit_ne_dash e5) (digit_ne_dash e6) (digit_ne_dash e7)
    (digit_ne_dash e8)]
  simp only [pyStrip_quad (digit_not_space e1) (digit_not_space e4),
    pyStrip_pair (digit_not_space e5) (digit_not_space e6),
    pyStrip_pair (digit_not_space e7) (digit_not_space e8),
    pyIntOfChars_quad e1 e2 e3 e4, pyIntOfChars_pair e5 e6, pyIntOfChars_pair e7 e8]
  have hok : isoformatYMD
      (Int.ofNat
        (((digitVal y1 * 10 + digitVal y2) * 10 + digitVal y3) * 10 + digitVal y4)).toNat
      (Int.ofNat (digitVal m1 * 10 + digitVal m2)).toNat
      (Int.ofNat (digitVal d1 * 10 + digitVal d2)).toNat = s := by
    have r1 : (Int.ofNat
        (((digitVal y1 * 10 + digitVal y2) * 10 + digitVal y3) * 10 + digitVal y4)).toNat =
        ((digitVal y1 * 10 + digitVal y2) * 10 + digitVal y3) * 10 + digitVal y4 := rfl
    have r2 : (Int.ofNat (digitVal m1 * 10 + digitVal m2)).toNat =
        digitVal m1 * 10 + digitVal m2 := rfl
    have r3 : (Int.ofNat (digitVal d1 * 10 + digitVal d2)).toNat =
        digitVal d1 * 10 + digitVal d2 := rfl
    rw [r1, r2, r3]
    unfold isoformatYMD
    rw [pad4_digits e1 e2 e3 e4, pad2_digits e5 e6, pad2_digits e7 e8]
    cases s with
    | mk data =>
      have hd : data = [y1, y2, y3, y4, '-', m1, m2, '-', d1, d2] := hs
      rw [hd]
      rfl
  rw [hok]

theorem validate_date_format_aux {s : String} (h : dateRegexMatch s = false) :
    validate_date s = .error .format := by
  unfold validate_date
  rw [if_neg (by simp [h])]

theorem validate_date_unchanged_aux {s r : String} (h : validate_date s = .ok r) : r = s := by
  by_cases hre : dateRegexMatch s = true
  · obtain ⟨y1, y2, y3, y4, m1, m2, d1, d2, hs, e1, e2, e3, e4, e5, e6, e7, e8⟩ :=
      dateRegexMatch_shape hre
    rw [validate_date_shaped hs e1 e2 e3 e4 e5 e6 e7 e8] at h
    split at h
    · exact absurd h (by simp)
    · split at h
      · exact absurd h (by simp)
      · exact (Except.ok.inj h).symm
  · rw [validate_date_format_aux (Bool.not_eq_true _ ▸ hre : dateRegexMatch s = false)] at h
    exact absurd h (by simp)

/-- C5: `validate_date` rejects with `FormatError` any string not
matching four digits, `-`, two digits, `-`, two digits; on a matching
string it rejects with `InvalidDateError` unless the digits form a real
constructible calendar date, rejects with `TooEarlyError` when that date
precedes the minimum booking date 2025-09-02, and otherwise returns the
string; the documented examples `"2025-9-2"`, `"2025-13-01"` and
`"2025-09-01"` fail with those error kinds; and every accepted string is
returned unchanged. -/
theorem claim_C5 :
    (∀ s : String, dateRegexMatch s = false → validate_date s = .error .format) ∧
      (∀ (s : String) (y1 y2 y3 y4 m1 m2 d1 d2 : Char),
        s.toList = [y1, y2, y3, y4, '-', m1, m2, '-', d1, d2] →
        isDigitChar y1 = true → isDigitChar y2 = true → isDigitChar y3 = true →
        isDigitChar y4 = true → isDigitChar m1 = true → isDigitChar m2 = true →
        isDigitChar d1 = true → isDigitChar d2 = true →
        validate_date s =
          if ¬ isValidYMD
              (Int.ofNat
                (((digitVal y1 * 10 + digitVal y2) * 10 + digitVal y3) * 10 + digitVal y4))
              (Int.ofNat (digitVal m1 * 10 + digitVal m2))
              (Int.ofNat (digitVal d1 * 10 + digitVal d2)) then .error .invalid
          else if ymdLt
              (Int.ofNat
                (((digitVal y1 * 10 + digitVal y2) * 10 + digitVal y3) * 10 + digitVal y4))
              (Int.ofNat (digitVal m1 * 10 + digitVal m2))
              (Int.ofNat (digitVal d1 * 10 + digitVal d2)) 2025 9 2 = true then
            .error .tooEarly
          else .ok s) ∧
      (∀ s r : String, validate_date s = .ok r → r = s) ∧
      validate_date "2025-9-2" = .error .format ∧
      validate_date "2025-13-01" = .error .invalid ∧
      validate_date "2025-09-01" = .error .tooEarly := by
  exact ⟨fun s h => validate_date_format_aux h,
    fun s y1 y2 y3 y4 m1 m2 d1 d2 hs e1 e2 e3 e4 e5 e6 e7 e8 =>
      validate_date_shaped hs e1 e2 e3 e4 e5 e6 e7 e8,
    fun s r h => validate_date_unchanged_aux h, rfl, rfl, rfl⟩

/-- C5 witness: the characterization applied at the accepted string
`"2026-01-15"` (returned unchanged) and the rejected string
`"2026/01/15"` (format failure). -/
theorem claim_C5_witness :
    validate_date "2026-01-15" = .ok "2026-01-15" ∧
      validate_date "2026/01/15" = .error .format :=
  ⟨(claim_C5.2.1 "2026-01-15" '2' '0' '2' '6' '0' '1' '1' '5' rfl rfl rfl rfl rfl rfl rfl
      rfl rfl).trans rfl,
    claim_C5.1 "2026/01/15" (by decide)⟩

/-! Characterization of the validating constructor of `CCT211.py`. -/

theorem clockPair_shaped {s : String} {h1 h2 m1 m2 : Char}
    (hs : s.toList = [h1, h2, ':', m1, m2])
    (e1 : isDigitChar h1 = true) (e2 : isDigitChar h2 = true)
    (e3 : isDigitChar m1 = true) (e4 : isDigitChar m2 = true) :
    clockPair s = some (Int.ofNat (digitVal h1 * 10 + digitVal h2),
      Int.ofNat (digitVal m1 * 10 + digitVal m2)) := by
  unfold clockPair
  rw [hs, pySplit_time (digit_ne_colon e1) (digit_ne_colon e2) (digit_ne_colon e3)
    (digit_ne_colon e4)]
  simp only [pyStrip_pair (digit_not_space e1) (digit_not_space e2),
    pyStrip_pair (digit_not_space e3) (digit_not_space e4),
    pyIntOfChars_pair e1 e2, pyIntOfChars_pair e3 e4]

theorem validate_time_ok_regex {s r : String} (h : validate_time s = .ok r) :
    timeRegexMatch s = true := by
  by_cases hr : timeRegexMatch s = true
  · exact hr
  · rw [validate_time_format_aux (Bool.not_eq_true _ ▸ hr : timeRegexMatch s = false)] at h
    exact absurd h (by simp)

theorem validate_time_ok_data {s : String} (h : validate_time s = .ok s) :
    ∃ H M : Int, clockPair s = some (H, M) ∧ parse_time_to_minutes s = H * 60 + M ∧
      0 ≤ H ∧ H ≤ 23 ∧ 0 ≤ M ∧ M ≤ 59 := by
  obtain ⟨h1, h2, m1, m2, hs, e1, e2, e3, e4⟩ := timeRegexMatch_shape (validate_time_ok_regex h)
  rw [validate_time_shaped hs e1 e2 e3 e4] at h
  by_cases hh : digitVal h1 * 10 + digitVal h2 ≤ 23
  · by_cases hm : digitVal m1 * 10 + digitVal m2 ≤ 59
    · refine ⟨Int.ofNat (digitVal h1 * 10 + digitVal h2),
        Int.ofNat (digitVal m1 * 10 + digitVal m2), clockPair_shaped hs e1 e2 e3 e4, ?_, ?_,
        ?_, ?_, ?_⟩
      · rw [parse_shaped hs e1 e2 e3 e4]
        simp only [Int.ofNat_eq_coe]
        push_cast
        ring
      · simp only [Int.ofNat_eq_coe]; omega
      · simp only [Int.ofNat_eq_coe]; omega
      · simp only [Int.ofNat_eq_coe]; omega
      · simp only [Int.ofNat_eq_coe]; omega
    · simp [hh, hm] at h
  · simp [hh] at h

theorem init_dateErr_aux {bid : Int} {u f ds st et status cb : String} {e : DateError}
    (hd : validate_date ds = .error e) :
    amenityBookingInit bid u f ds st et status cb = .error (.dateErr e) := by
  unfold amenityBookingInit
  rw [hd]

theorem init_startErr_aux {bid : Int} {u f ds st et status cb d : String} {e : TimeError}
    (hd : validate_date ds = .ok d) (hst : validate_time st = .error e) :
    amenityBookingInit bid u f ds st et status cb = .error (.startErr e) := by
  unfold amenityBookingInit
  rw [hd, hst]

theorem init_endErr_aux {bid : Int} {u f ds st et status cb d st2 : String} {e : TimeError}
    (hd : validate_date ds = .ok d) (hst : validate_time st = .ok st2)
    (het : validate_time et = .error e) :
    amenityBookingInit bid u f ds st et status cb = .error (.endErr e) := by
  unfold amenityBookingInit
  rw [hd, hst, het]

theorem init_ordering_aux {bid : Int} {u f ds st et status cb : String}
    (hd : validate_date ds = .ok ds) (hst : validate_time st = .ok st)
    (het : validate_time et = .ok et) :
    (amenityBookingInit bid u f ds st et status cb = .error .ordering ↔
      parse_time_to_minutes et ≤ parse_time_to_minutes st) := by
  obtain ⟨H1, M1, hcp1, hp1, b1, b2, b3, b4⟩ := validate_time_ok_data hst
  obtain ⟨H2, M2, hcp2, hp2, c1, c2, c3, c4⟩ := validate_time_ok_data het
  unfold amenityBookingInit
  simp only [hd, hst, het, hcp1, hcp2]
  rw [hp1, hp2]
  by_cases hge : pairGE (H1, M1) (H2, M2) = true
  · rw [if_pos hge]
    unfold pairGE at hge
    simp only [Bool.or_eq_true, Bool.and_eq_true, decide_eq_true_eq] at hge
    exact iff_of_true rfl (by omega)
  · rw [if_neg hge]
    unfold pairGE at hge
    simp only [Bool.or_eq_true, Bool.and_eq_true, decide_eq_true_eq, not_or, not_and,
      not_le, not_lt] at hge
    refine iff_of_false (by simp) (by push_neg; omega)

theorem init_ok_aux {bid : Int} {u f ds st et status cb : String} {b : AmenityBooking}
    (h : amenityBookingInit bid u f ds st et status cb = .ok b) :
    validate_date b.date = .ok b.date ∧ validate_time b.start_time = .ok b.start_time ∧
      validate_time b.end_time = .ok b.end_time ∧
      parse_time_to_minutes b.start_time < parse_time_to_minutes b.end_time ∧
      b.id = bid ∧ b.unit = u ∧ b.facility_type = f ∧ b.date = ds ∧ b.start_time = st ∧
      b.end_time = et ∧ b.status = status ∧ b.created_by = cb := by
  unfold amenityBookingInit at h
  split at h
  next => exact absurd h (by simp)
  next d hd =>
    split at h
    next => exact absurd h (by simp)
    next st2 hst =>
      split at h
      next => exact absurd h (by simp)
      next et2 het =>
        split at h
        next stp etp hcp1 hcp2 =>
          split at h
          · exact absurd h (by simp)
          next hge =>
            have hb := (Except.ok.inj h).symm
            subst hb
            have hds : d = ds := validate_date_unchanged_aux hd
            have hst2 : st2 = st := validate_time_unchanged_aux hst
            have het2 : et2 = et := validate_time_unchanged_aux het
            subst hds hst2 het2
            obtain ⟨H1, M1, hcp1b, hp1, b1, b2, b3, b4⟩ := validate_time_ok_data hst
            obtain ⟨H2, M2, hcp2b, hp2, c1, c2, c3, c4⟩ := validate_time_ok_data het
            rw [hcp1b] at hcp1
            rw [hcp2b] at hcp2
            obtain ⟨rfl⟩ : stp = (H1, M1) := by
              cases Option.some.inj hcp1; rfl
            obtain ⟨rfl⟩ : etp = (H2, M2) := by
              cases Option.some.inj hcp2; rfl
            unfold pairGE at hge
            simp only [Bool.or_eq_true, Bool.and_eq_true, decide_eq_true_eq, not_or,
              not_and, not_le, not_lt] at hge
            refine ⟨hd, hst, het, ?_, rfl, rfl, rfl, rfl, rfl, rfl, rfl, rfl⟩
            rw [hp1, hp2]
            rcases hge with ⟨hga, hgb⟩
            by_cases heq : H1 = H2
            · have := hgb heq
              omega
            · omega
        next => exact absurd h (by simp)

/-- C7 counterexample: the `CCT211_Project2.py` constructor performs no
validation, so — contrary to the claim that the Booking Entity
constructor validates at construction time — it constructs bookings whose
start does not precede their end and bookings whose time fields fail
validation outright. -/
theorem claim_C7_counterexample :
    (p2AmenityBookingInit 1 "101" "Gym" "2025-09-10" "10:00" "09:00" "Booked" "u").start_time =
        "10:00" ∧
      (p2AmenityBookingInit 1 "101" "Gym" "2025-09-10" "10:00" "09:00" "Booked" "u").end_time =
        "09:00" ∧
      parse_time_to_minutes
          (p2AmenityBookingInit 1 "101" "Gym" "2025-09-10" "10:00" "09:00" "Booked"
            "u").end_time ≤
        parse_time_to_minutes
          (p2AmenityBookingInit 1 "101" "Gym" "2025-09-10" "10:00" "09:00" "Booked"
            "u").start_time ∧
      validate_time
          (p2AmenityBookingInit 2 "101" "Gym" "bad" "aa:bb" "cc:dd" "Booked" "u").start_time =
        .error .format :=
  ⟨rfl, rfl, by decide, rfl⟩

/-- C7 (amended): the validating constructor of `CCT211.py` runs
`validate_date` on the date and `validate_time` on both times, fails with
the ordering error exactly when the validated start does not precede the
validated end, propagates every validation failure as an error (so no
booking object is produced), and every booking it constructs carries
validated date/time fields with start strictly before end; the
`CCT211_Project2.py` variant's constructor stores all fields verbatim
without any validation. -/
theorem claim_C7 :
    (∀ (bid : Int) (u f ds st et status cb : String) (b : AmenityBooking),
        amenityBookingInit bid u f ds st et status cb = .ok b →
        validate_date b.date = .ok b.date ∧ validate_time b.start_time = .ok b.start_time ∧
          validate_time b.end_time = .ok b.end_time ∧
          parse_time_to_minutes b.start_time < parse_time_to_minutes b.end_time ∧
          b.id = bid ∧ b.unit = u ∧ b.facility_type = f ∧ b.date = ds ∧ b.start_time = st ∧
          b.end_time = et ∧ b.status = status ∧ b.created_by = cb) ∧
      (∀ (bid : Int) (u f ds st et status cb : String),
        validate_date ds = .ok ds → validate_time st = .ok st → validate_time et = .ok et →
        (amenityBookingInit bid u f ds st et status cb = .error .ordering ↔
          parse_time_to_minutes et ≤ parse_time_to_minutes st)) ∧
      (∀ (bid : Int) (u f ds st et status cb : String) (e : DateError),
        validate_date ds = .error e →
        amenityBookingInit bid u f ds st et status cb = .error (.dateErr e)) ∧
      (∀ (bid : Int) (u f ds st et status cb d : String) (e : TimeError),
        validate_date ds = .ok d → validate_time st = .error e →
        amenityBookingInit bid u f ds st et status cb = .error (.startErr e)) ∧
      (∀ (bid : Int) (u f ds st et status cb d st2 : String) (e : TimeError),
        validate_date ds = .ok d → validate_time st = .ok st2 → validate_time et = .error e →
        amenityBookingInit bid u f ds st et status cb = .error (.endErr e)) ∧
      (∀ (bid : Int) (u f ds st et status cb : String),
        p2AmenityBookingInit bid u f ds st et status cb =
          ⟨bid, u, f, ds, st, et, status, cb⟩) :=
  ⟨fun _ _ _ _ _ _ _ _ _ h => init_ok_aux h,
    fun _ _ _ _ _ _ _ _ hd hst het => init_ordering_aux hd hst het,
    fun _ _ _ _ _ _ _ _ _ hd => init_dateErr_aux hd,
    fun _ _ _ _ _ _ _ _ _ _ hd hst => init_startErr_aux hd hst,
    fun _ _ _ _ _ _ _ _ _ _ _ hd hst het => init_endErr_aux hd hst het,
    fun _ _ _ _ _ _ _ _ => rfl⟩

/-- C7 witness: a concrete equal-endpoint construction fails with the
ordering error, and a concrete valid construction yields a booking whose
stored date field revalidates successfully. -/
theorem claim_C7_witness :
    amenityBookingInit 1 "101" "Gym" "2025-09-10" "10:00" "10:00" "Booked" "u" =
        .error .ordering ∧
      validate_date
        (⟨1, "101", "Gym", "2025-09-10", "09:00", "10:00", "Booked", "u"⟩ : AmenityBooking).date =
        .ok "2025-09-10" := by
  constructor
  · exact (claim_C7.2.1 1 "101" "Gym" "2025-09-10" "10:00" "10:00" "Booked" "u"
      rfl rfl rfl).mpr (by decide)
  · exact (claim_C7.1 1 "101" "Gym" "2025-09-10" "09:00" "10:00" "Booked" "u"
      ⟨1, "101", "Gym", "2025-09-10", "09:00", "10:00", "Booked", "u"⟩ rfl).1
